import Mathlib

/-!
Verification of the matching/ranking engine of the resume-screener backend
(`src/services/search_handler.py` and `src/services/rank_handler.py`).

Modelling conventions:
* Python floats are modelled as exact real numbers; vector components and the
  purely rational score computations (location fuzzy match, experience step
  function) are modelled over `ℚ` and coerced into `ℝ` where they meet the
  cosine-similarity scores, which genuinely involve square roots.
* A Python value that can be `None`, `""` or a number (the JSON column
  `total_experience`) is modelled by the inductive type `ExpVal`; Python
  truthiness (`if x:`) is modelled by explicit `truthy…` functions.
* An absent list (Python `None`) and an empty list are both falsy in the
  source and are both modelled by `[]`.
* `sorted(results, key=…, reverse=True)` is a stable descending sort; it is
  modelled by `List.mergeSort` (stable) with the order `y.score ≤ x.score`.
-/

namespace RS

/-- Dot product of two rational vectors, `np.dot` restricted to the
in-contract case of equal-length vectors (`zipWith` truncates to the common
length; beyond it one factor is absent, matching the contract in §6 of the
spec that all vectors have consistent length). -/
def dotQ (a b : List ℚ) : ℚ := (List.zipWith (· * ·) a b).sum

/-- Squared Euclidean norm of a rational vector. -/
def normSq (a : List ℚ) : ℚ := dotQ a a

/-- Euclidean norm, `np.linalg.norm`. -/
noncomputable def vnorm (a : List ℚ) : ℝ := Real.sqrt ((normSq a : ℝ))

/-- Raw cosine similarity `dot_product / (norm1 * norm2)`. -/
noncomputable def cosSim (a b : List ℚ) : ℝ := ((dotQ a b : ℚ) : ℝ) / (vnorm a * vnorm b)

/-- The `similarities` list built by the loop in
`SearchHandler.calculate_skills_similarity`: one raw cosine per query vector,
appended only when both norms are nonzero (`if norm1 and norm2:`; a float
norm is truthy iff it is nonzero, and `vnorm v ≠ 0 ↔ normSq v ≠ 0`). -/
noncomputable def simsOf : List (List ℚ) → List ℚ → List ℝ
  | [], _ => []
  | v :: vs, c =>
    if normSq v ≠ 0 ∧ normSq c ≠ 0 then cosSim v c :: simsOf vs c
    else simsOf vs c

/-- Python `max(l) if l else 0`. -/
def pyMax {α : Type} [Zero α] [LinearOrder α] : List α → α
  | [] => 0
  | x :: xs => xs.foldl max x

/-- Python `min(l) if l else 0`. -/
def pyMin {α : Type} [Zero α] [LinearOrder α] : List α → α
  | [] => 0
  | x :: xs => xs.foldl min x

/-- `SearchHandler.calculate_skills_similarity`: 0 when either input is
empty/absent, otherwise the maximum of the raw (unclamped) cosines against
each query vector, 0 when no cosine was computed. -/
noncomputable def calculate_skills_similarity (query_vectors : List (List ℚ))
    (candidate_vector : List ℚ) : ℝ :=
  if query_vectors.isEmpty || candidate_vector.isEmpty then 0
  else pyMax (simsOf query_vectors candidate_vector)

/-- `RankHandler.calculate_skills_match`: single cosine similarity, clamped
into `[0, 1]` by `max(0.0, min(1.0, similarity))`; 0 on absent vectors or a
zero norm. -/
noncomputable def calculate_skills_match (candidate_vector job_vector : List ℚ) : ℝ :=
  if candidate_vector.isEmpty || job_vector.isEmpty then 0
  else if normSq candidate_vector ≠ 0 ∧ normSq job_vector ≠ 0 then
    max 0 (min 1 (cosSim candidate_vector job_vector))
  else 0

/-- Python `str.strip()` on a list of characters. -/
def trimWs (l : List Char) : List Char :=
  ((l.dropWhile Char.isWhitespace).reverse.dropWhile Char.isWhitespace).reverse

/-- Python `str.split(',')`. -/
def splitComma : List Char → List (List Char)
  | [] => [[]]
  | c :: rest =>
    if c = ',' then [] :: splitComma rest
    else
      match splitComma rest with
      | [] => [[c]]
      | p :: ps => (c :: p) :: ps

/-- `[q.strip().lower() for q in s.split(',')]`. -/
def lowerParts (s : String) : List (List Char) :=
  (splitComma s.data).map (fun p => (trimWs p).map Char.toLower)

/-- Number of positions (aligned from index 0) where the two segments hold
equal characters: `sum(1 for a, b in zip(shorter, longer) if a == b)`
(`zip` truncates to the shorter segment, so which argument is shorter is
irrelevant to the count). -/
def countEqPos (a b : List Char) : ℕ :=
  (List.zipWith (fun x y => if x = y then (1 : ℕ) else 0) a b).sum

/-- Bool test: `small` occurs in `big` as a contiguous segment starting at
position 0 (prefix test, helper for Python `in` on strings). -/
def headSeg : List Char → List Char → Bool
  | [], _ => true
  | _ :: _, [] => false
  | x :: xs, y :: ys => x = y && headSeg xs ys

/-- Bool test for Python substring containment `small in big`. -/
def hasSeg (small big : List Char) : Bool :=
  match big with
  | [] => small.isEmpty
  | _ :: bs => headSeg small big || hasSeg small bs

/-- Per-segment similarity from the inner loop of
`SearchHandler.calculate_location_match`: 1.0 on exact match, 0.9 on
substring containment either way, else the positional character-overlap
count divided by the length of the longer segment (0 when both are empty,
which the source guards with `len(longer) == 0`). -/
def partSim (q c : List Char) : ℚ :=
  if q = c then 1
  else if hasSeg q c || hasSeg c q then 9 / 10
  else if max q.length c.length = 0 then 0
  else (countEqPos q c : ℚ) / (max q.length c.length : ℚ)

/-- `SearchHandler.calculate_location_match`: 0 when either string is empty,
otherwise the mean over query segments of the best per-candidate-segment
similarity. -/
def calculate_location_match (query_location candidate_location : String) : ℚ :=
  if query_location = "" || candidate_location = "" then 0
  else
    let qps := lowerParts query_location
    let cps := lowerParts candidate_location
    let maxSims := qps.map (fun qp => pyMax (cps.map (fun cp => partSim qp cp)))
    maxSims.sum / (qps.length : ℚ)

/-- `calculate_experience_match`, identical in `search_handler.py` and
`rank_handler.py`: 0 when either argument is `None`, otherwise the step
function of the absolute difference in years. -/
def calculate_experience_match :
    Option ℚ → Option ℚ → ℚ
  | some c, some r =>
    let d := |c - r|
    if d = 0 then 1
    else if d ≤ 1 then 9 / 10
    else if d ≤ 2 then 7 / 10
    else if d ≤ 3 then 1 / 2
    else if d ≤ 4 then 3 / 10
    else 1 / 10
  | _, _ => 0

/-- The JSON column `CandidateProfile.total_experience`: Python `None`, the
empty-string sentinel `""`, or a number of years. -/
inductive ExpVal where
  | null : ExpVal
  | emptyStr : ExpVal
  | num (q : ℚ) : ExpVal
deriving DecidableEq

/-- Python truthiness of an `ExpVal` (`None`, `""` and `0.0` are falsy). -/
def ExpVal.truthy : ExpVal → Bool
  | .num q => q != 0
  | _ => false

/-- The value as passed to `calculate_experience_match` (which treats `None`
as absent; the `""` sentinel would raise inside and degrade to 0 via the
defensive handler, which coincides with the `None` path). -/
def ExpVal.toOpt : ExpVal → Option ℚ
  | .num q => some q
  | _ => none

/-- Python truthiness of an optional string (`None` and `""` are falsy). -/
def truthyS : Option String → Bool
  | none => false
  | some s => s != ""

/-- Python truthiness of an optional number (`None` and `0.0` are falsy). -/
def truthyQ : Option ℚ → Bool
  | none => false
  | some q => q != 0

/-- The fields of a `CandidateProfile` row read by the two handlers:
`resume_vector` (absent or empty modelled as `[]`),
`parsed_resume["personal_info"]["location"]` flattened into `location`, and
the JSON `total_experience` column. -/
structure CandidateProfile where
  resume_vector : List ℚ
  location : Option String
  total_experience : ExpVal
deriving DecidableEq

/-- The fields of a `Job` row read by `RankHandler`. -/
structure Job where
  id : ℤ
  jd_vector : List ℚ
  location : Option String
  required_experience : Option ℚ
deriving DecidableEq

/-- The `SearchScores` named tuple of `search_handler.py`. -/
structure SearchScores where
  skills_score : ℝ
  location_score : ℝ
  experience_score : ℝ
  total_score : ℝ

/-- The per-candidate loop state of `SearchHandler.search_candidates`:
the three optional sub-scores (initialised to `None`) and the running
`total_score` and `total_weight`. -/
structure SearchAcc where
  skills : Option ℝ
  loc : Option ℝ
  exp : Option ℝ
  total : ℝ
  weight : ℝ

/-- The body of the per-candidate loop of `SearchHandler.search_candidates`:
each criterion is evaluated only when it was supplied and the candidate has
the corresponding data (`if skills_vectors and candidate.resume_vector`,
`if location and …["location"]`, `if required_experience and
candidate.total_experience != ""`), contributing `sub_score * weight` and
its weight (defaults skills 0.6, location 0.2, experience 0.2). -/
noncomputable def searchAcc (skills_vectors : List (List ℚ)) (location : Option String)
    (required_experience : Option ℚ) (c : CandidateProfile) : SearchAcc :=
  let a0 : SearchAcc := ⟨none, none, none, 0, 0⟩
  let a1 :=
    if !skills_vectors.isEmpty && !c.resume_vector.isEmpty then
      let s := calculate_skills_similarity skills_vectors c.resume_vector
      ⟨some s, a0.loc, a0.exp, a0.total + s * 0.6, a0.weight + 0.6⟩
    else a0
  let a2 :=
    if truthyS location && truthyS c.location then
      let l := ((calculate_location_match (location.getD "") (c.location.getD "") : ℚ) : ℝ)
      ⟨a1.skills, some l, a1.exp, a1.total + l * 0.2, a1.weight + 0.2⟩
    else a1
  let a3 :=
    if truthyQ required_experience && !(c.total_experience = ExpVal.emptyStr : Bool) then
      let e := ((calculate_experience_match c.total_experience.toOpt required_experience : ℚ) : ℝ)
      ⟨a2.skills, a2.loc, some e, a2.total + e * 0.2, a2.weight + 0.2⟩
    else a2
  a3

/-- The tail of the per-candidate loop: a candidate produces a result entry
iff `total_weight > 0` and `final_score >= min_score`, where
`final_score = total_score / total_weight`; the stored sub-scores replace a
missing (`None`) sub-score by `0.0` (`skills_score or 0.0`). -/
noncomputable def candidateResult (skills_vectors : List (List ℚ)) (location : Option String)
    (required_experience : Option ℚ) (min_score : ℝ) (c : CandidateProfile) :
    Option (CandidateProfile × SearchScores) :=
  let a := searchAcc skills_vectors location required_experience c
  if 0 < a.weight then
    let fs := a.total / a.weight
    if min_score ≤ fs then
      some (c, ⟨a.skills.getD 0, a.loc.getD 0, a.exp.getD 0, fs⟩)
    else none
  else none

/-- The sort order of `sorted(results, key=lambda x: x['scores'].total_score,
reverse=True)`. -/
noncomputable def searchLE (x y : CandidateProfile × SearchScores) : Bool :=
  decide (y.2.total_score ≤ x.2.total_score)

/-- `SearchHandler.search_candidates` over an in-memory candidate snapshot:
score every candidate, keep those clearing the gates, sort stably in
descending total-score order and truncate to `limit`. -/
noncomputable def search_candidates (candidates : List CandidateProfile)
    (skills_vectors : List (List ℚ)) (location : Option String)
    (required_experience : Option ℚ) (min_score : ℝ) (limit : ℕ) :
    List (CandidateProfile × SearchScores) :=
  (((candidates.filterMap
      (candidateResult skills_vectors location required_experience min_score)).mergeSort
    searchLE).take limit)

/-- The summary record of `SearchHandler.get_search_summary`. -/
structure SearchSummary where
  count : ℕ
  avg_score : ℝ
  max_score : ℝ
  min_score : ℝ
  excellent : ℕ
  good : ℕ
  fair : ℕ

/-- `SearchHandler.get_search_summary`: all-zero summary on an empty result
set, otherwise count, mean/max/min of the total scores, and the fixed-bucket
histogram (`s >= 0.8`, `0.6 <= s < 0.8`, `0.5 <= s < 0.6`). -/
noncomputable def get_search_summary (search_results : List (CandidateProfile × SearchScores)) :
    SearchSummary :=
  if search_results.isEmpty then ⟨0, 0, 0, 0, 0, 0, 0⟩
  else
    let scores := search_results.map (fun r => r.2.total_score)
    { count := search_results.length
      avg_score := if scores.isEmpty then 0 else scores.sum / (scores.length : ℝ)
      max_score := if scores.isEmpty then 0 else pyMax scores
      min_score := if scores.isEmpty then 0 else pyMin scores
      excellent := scores.countP (fun s => decide ((0.8 : ℝ) ≤ s))
      good := scores.countP (fun s => decide ((0.6 : ℝ) ≤ s ∧ s < 0.8))
      fair := scores.countP (fun s => decide ((0.5 : ℝ) ≤ s ∧ s < 0.6)) }

/-- The per-candidate scores dictionary and running total of
`RankHandler.rank_candidates_for_job`: sub-scores default to `0.0`, the
total is the un-normalized sum of `sub_score * weight` over the criteria
whose data is present on both sides (weights skills 0.4, experience 0.3,
location 0.1; the configured title weight 0.2 is never consumed). -/
structure RankAcc where
  skills_score : ℝ
  experience_score : ℝ
  location_score : ℝ
  total : ℝ

/-- The body of the per-candidate loop of
`RankHandler.rank_candidates_for_job`: skills when
`job.jd_vector and candidate.resume_vector`, experience when
`job.required_experience and candidate.total_experience` (both truthy),
location when `job.location and candidate_location` (both truthy). -/
noncomputable def rankAcc (job : Job) (c : CandidateProfile) : RankAcc :=
  let a0 : RankAcc := ⟨0, 0, 0, 0⟩
  let a1 :=
    if !job.jd_vector.isEmpty && !c.resume_vector.isEmpty then
      let s := calculate_skills_match c.resume_vector job.jd_vector
      ⟨s, a0.experience_score, a0.location_score, a0.total + s * 0.4⟩
    else a0
  let a2 :=
    if truthyQ job.required_experience && c.total_experience.truthy then
      let e := ((calculate_experience_match c.total_experience.toOpt job.required_experience : ℚ) : ℝ)
      ⟨a1.skills_score, e, a1.location_score, a1.total + e * 0.3⟩
    else a1
  let a3 :=
    if truthyS job.location && truthyS c.location then
      let l := ((calculate_location_match (job.location.getD "") (c.location.getD "") : ℚ) : ℝ)
      ⟨a2.skills_score, a2.experience_score, l, a2.total + l * 0.1⟩
    else a2
  a3

/-- The inclusion gate of the ranking loop: `if total_score >= min_score`. -/
noncomputable def rankResult (job : Job) (min_score : ℝ) (c : CandidateProfile) :
    Option (CandidateProfile × RankAcc) :=
  let a := rankAcc job c
  if min_score ≤ a.total then some (c, a) else none

/-- The sort order of `sorted(ranked_results, key=lambda x: x['total_score'],
reverse=True)`. -/
noncomputable def rankLE (x y : CandidateProfile × RankAcc) : Bool :=
  decide (y.2.total ≤ x.2.total)

/-- `RankHandler.rank_candidates_for_job`: look the job up by identifier
(`db.query(Job).filter(Job.id == job_id).first()`), return `[]` when it is
missing or when there are no candidates, otherwise score, filter by
`min_score`, sort stably in descending order and truncate to `limit`. -/
noncomputable def rank_candidates_for_job (jobs : List Job)
    (candidates : List CandidateProfile) (job_id : ℤ) (min_score : ℝ) (limit : ℕ) :
    List (CandidateProfile × RankAcc) :=
  match jobs.find? (fun j => j.id == job_id) with
  | none => []
  | some job =>
    if candidates.isEmpty then []
    else
      (((candidates.filterMap (rankResult job min_score)).mergeSort rankLE).take limit)

/-- Does an `ExpVal` actually hold a number (the candidate "has" experience
data, in the sense of the data model where both `None` and `""` are absent)? -/
def ExpVal.isNum : ExpVal → Bool
  | .num _ => true
  | _ => false

/-- Modelled from the spec: per claim C1, a criterion is *applied* iff it was
supplied and the candidate has the corresponding data; this is the claim's
accumulated applied weight (defaults skills 0.6, location 0.2,
experience 0.2), where "per-candidate experience data is missing" means the
value holds no number. -/
noncomputable def claimAppliedWeight (skills_vectors : List (List ℚ)) (location : Option String)
    (required_experience : Option ℚ) (c : CandidateProfile) : ℝ :=
  (if !skills_vectors.isEmpty && !c.resume_vector.isEmpty then (0.6 : ℝ) else 0)
    + (if truthyS location && truthyS c.location then (0.2 : ℝ) else 0)
    + (if truthyQ required_experience && c.total_experience.isNum then (0.2 : ℝ) else 0)

/-- Modelled from the spec: claim C1's accumulated contribution, the sum of
`sub_score * weight` over the applied criteria. -/
noncomputable def claimContrib (skills_vectors : List (List ℚ)) (location : Option String)
    (required_experience : Option ℚ) (c : CandidateProfile) : ℝ :=
  (if !skills_vectors.isEmpty && !c.resume_vector.isEmpty then
      calculate_skills_similarity skills_vectors c.resume_vector * 0.6
    else 0)
    + (if truthyS location && truthyS c.location then
        ((calculate_location_match (location.getD "") (c.location.getD "") : ℚ) : ℝ) * 0.2
      else 0)
    + (if truthyQ required_experience && c.total_experience.isNum then
        ((calculate_experience_match c.total_experience.toOpt required_experience : ℚ) : ℝ) * 0.2
      else 0)

/-- Modelled from the spec: claim C1's final score,
accumulated contribution ÷ accumulated applied weight. -/
noncomputable def claimSearchTotal (skills_vectors : List (List ℚ)) (location : Option String)
    (required_experience : Option ℚ) (c : CandidateProfile) : ℝ :=
  claimContrib skills_vectors location required_experience c
    / claimAppliedWeight skills_vectors location required_experience c

/-- The weight the source actually applies per candidate: as
`claimAppliedWeight`, except that the experience criterion is skipped only
for the `""` sentinel (a `None` experience value still contributes its
weight, with sub-score 0). -/
noncomputable def codeAppliedWeight (skills_vectors : List (List ℚ)) (location : Option String)
    (required_experience : Option ℚ) (c : CandidateProfile) : ℝ :=
  (if !skills_vectors.isEmpty && !c.resume_vector.isEmpty then (0.6 : ℝ) else 0)
    + (if truthyS location && truthyS c.location then (0.2 : ℝ) else 0)
    + (if truthyQ required_experience && !(c.total_experience = ExpVal.emptyStr : Bool) then
        (0.2 : ℝ)
      else 0)

/-- The contribution the source actually accumulates per candidate (same
criteria conditions as `codeAppliedWeight`). -/
noncomputable def codeContrib (skills_vectors : List (List ℚ)) (location : Option String)
    (required_experience : Option ℚ) (c : CandidateProfile) : ℝ :=
  (if !skills_vectors.isEmpty && !c.resume_vector.isEmpty then
      calculate_skills_similarity skills_vectors c.resume_vector * 0.6
    else 0)
    + (if truthyS location && truthyS c.location then
        ((calculate_location_match (location.getD "") (c.location.getD "") : ℚ) : ℝ) * 0.2
      else 0)
    + (if truthyQ required_experience && !(c.total_experience = ExpVal.emptyStr : Bool) then
        ((calculate_experience_match c.total_experience.toOpt required_experience : ℚ) : ℝ) * 0.2
      else 0)

/-- Concrete candidate for the worked search example of the spec ("C1"):
skills cosine 0.9 to the query vector `[10,0,0,0]`, no location, no
experience data (the `""` sentinel the source tests for). -/
def candA : CandidateProfile := ⟨[9, 3, 3, 1], none, .emptyStr⟩

/-- Concrete candidate for the worked search example of the spec ("C2"):
skills cosine 0.5 to the query vector `[10,0,0,0]`, exact location match,
exact experience match. -/
def candB : CandidateProfile := ⟨[1, 1, 1, 1], some "Austin, TX", .num 5⟩

/-- Concrete candidate whose experience field is Python `None`: the search
handler's `total_experience != ""` test does not skip it. -/
def candNull : CandidateProfile := ⟨[1], none, .null⟩

/-- Concrete candidate whose skills cosine to the query vector `[10,0,0,0]`
is negative (−0.1), with exact location and experience matches. -/
def candNeg : CandidateProfile := ⟨[-1, 7, 7, 1], some "Austin, TX", .num 5⟩

/-- Concrete job for the worked ranking example of the spec: requirements
vector `[1]`, required experience 5.0 years, no location. -/
def jobJ : Job := ⟨1, [1], none, some 5⟩

/-- Ranking example candidate A: 5.0 years exact, skills cosine 1.0. -/
def candRA : CandidateProfile := ⟨[1], none, .num 5⟩

/-- Ranking example candidate B: no experience data, skills cosine 1.0. -/
def candRB : CandidateProfile := ⟨[1], none, .null⟩

end RS

namespace RS

/-! ### Generic list lemmas -/

theorem le_foldl_max {α : Type} [LinearOrder α] :
    ∀ (l : List α) (x : α), x ≤ l.foldl max x
  | [], x => le_refl x
  | y :: ys, x => le_trans (le_max_left x y) (le_foldl_max ys (max x y))

theorem foldl_max_mem {α : Type} [LinearOrder α] :
    ∀ (l : List α) (x : α), l.foldl max x = x ∨ l.foldl max x ∈ l
  | [], x => Or.inl rfl
  | y :: ys, x => by
    rcases foldl_max_mem ys (max x y) with h | h
    · rcases max_cases x y with ⟨h1, _⟩ | ⟨h1, _⟩
      · exact Or.inl (by rw [List.foldl_cons, h, h1])
      · exact Or.inr (by rw [List.foldl_cons, h, h1]; exact List.mem_cons_self y ys)
    · exact Or.inr (List.mem_cons_of_mem y h)

theorem mem_le_foldl_max {α : Type} [LinearOrder α] :
    ∀ (l : List α) (x : α) {y : α}, y ∈ l → y ≤ l.foldl max x
  | z :: zs, x, y, h => by
    rcases List.mem_cons.mp h with rfl | h'
    · exact le_trans (le_max_right x y) (le_foldl_max zs _)
    · exact mem_le_foldl_max zs (max x z) h'

theorem foldl_max_le {α : Type} [LinearOrder α] :
    ∀ (l : List α) (x c : α), x ≤ c → (∀ y ∈ l, y ≤ c) → l.foldl max x ≤ c
  | [], _, _, hx, _ => hx
  | z :: zs, _, c, hx, h =>
    foldl_max_le zs _ c (max_le hx (h z (List.mem_cons_self z zs)))
      (fun y hy => h y (List.mem_cons_of_mem z hy))

theorem pyMax_mem {α : Type} [Zero α] [LinearOrder α] :
    ∀ {l : List α}, l ≠ [] → pyMax l ∈ l
  | [], h => absurd rfl h
  | x :: xs, _ => by
    rcases foldl_max_mem xs x with h | h
    · rw [pyMax, h]; exact List.mem_cons_self x xs
    · rw [pyMax]; exact List.mem_cons_of_mem x h

theorem le_pyMax {α : Type} [Zero α] [LinearOrder α] {l : List α} {y : α}
    (h : y ∈ l) : y ≤ pyMax l := by
  match l with
  | [] => exact absurd h (List.not_mem_nil y)
  | x :: xs =>
    rw [pyMax]
    rcases List.mem_cons.mp h with rfl | h'
    · exact le_foldl_max xs y
    · exact mem_le_foldl_max xs x h'

theorem pyMax_le {α : Type} [Zero α] [LinearOrder α] {l : List α} {c : α}
    (h0 : 0 ≤ c) (h : ∀ y ∈ l, y ≤ c) : pyMax l ≤ c := by
  match l with
  | [] => exact h0
  | x :: xs =>
    rw [pyMax]
    exact foldl_max_le xs x c (h x (List.mem_cons_self x xs))
      (fun y hy => h y (List.mem_cons_of_mem x hy))

theorem lo_le_pyMax {α : Type} [Zero α] [LinearOrder α] {l : List α} {lo : α}
    (h0 : lo ≤ 0) (h : ∀ y ∈ l, lo ≤ y) : lo ≤ pyMax l := by
  match l with
  | [] => exact h0
  | x :: xs => exact le_trans (h x (List.mem_cons_self x xs)) (le_pyMax (List.mem_cons_self x xs))

theorem foldl_min_le {α : Type} [LinearOrder α] :
    ∀ (l : List α) (x : α), l.foldl min x ≤ x
  | [], x => le_refl x
  | y :: ys, x => le_trans (foldl_min_le ys (min x y)) (min_le_left x y)

theorem foldl_min_mem {α : Type} [LinearOrder α] :
    ∀ (l : List α) (x : α), l.foldl min x = x ∨ l.foldl min x ∈ l
  | [], x => Or.inl rfl
  | y :: ys, x => by
    rcases foldl_min_mem ys (min x y) with h | h
    · rcases min_cases x y with ⟨h1, _⟩ | ⟨h1, _⟩
      · exact Or.inl (by rw [List.foldl_cons, h, h1])
      · exact Or.inr (by rw [List.foldl_cons, h, h1]; exact List.mem_cons_self y ys)
    · exact Or.inr (List.mem_cons_of_mem y h)

theorem foldl_min_le_mem {α : Type} [LinearOrder α] :
    ∀ (l : List α) (x : α) {y : α}, y ∈ l → l.foldl min x ≤ y
  | z :: zs, x, y, h => by
    rcases List.mem_cons.mp h with rfl | h'
    · exact le_trans (foldl_min_le zs _) (min_le_right x y)
    · exact foldl_min_le_mem zs (min x z) h'

theorem pyMin_mem {α : Type} [Zero α] [LinearOrder α] :
    ∀ {l : List α}, l ≠ [] → pyMin l ∈ l
  | [], h => absurd rfl h
  | x :: xs, _ => by
    rcases foldl_min_mem xs x with h | h
    · rw [pyMin, h]; exact List.mem_cons_self x xs
    · rw [pyMin]; exact List.mem_cons_of_mem x h

theorem pyMin_le {α : Type} [Zero α] [LinearOrder α] {l : List α} {y : α}
    (h : y ∈ l) : pyMin l ≤ y := by
  match l with
  | [] => exact absurd h (List.not_mem_nil y)
  | x :: xs =>
    rw [pyMin]
    rcases List.mem_cons.mp h with rfl | h'
    · exact foldl_min_le xs y
    · exact foldl_min_le_mem xs x h'

/-! ### Dot products, Cauchy–Schwarz, cosine bounds -/

theorem dotQ_nil_left (b : List ℚ) : dotQ [] b = 0 := rfl

theorem dotQ_nil_right (a : List ℚ) : dotQ a [] = 0 := by cases a <;> rfl

theorem dotQ_cons (x y : ℚ) (xs ys : List ℚ) :
    dotQ (x :: xs) (y :: ys) = x * y + dotQ xs ys := by
  simp [dotQ]

theorem normSq_cons (x : ℚ) (xs : List ℚ) :
    normSq (x :: xs) = x * x + normSq xs := dotQ_cons x x xs xs

theorem normSq_nonneg : ∀ a : List ℚ, 0 ≤ normSq a
  | [] => le_refl 0
  | x :: xs => by
    rw [normSq_cons]
    exact add_nonneg (mul_self_nonneg x) (normSq_nonneg xs)

/-- Cauchy–Schwarz for `dotQ`. -/
theorem dotQ_sq_le : ∀ a b : List ℚ, dotQ a b ^ 2 ≤ normSq a * normSq b
  | [], b => by simp [dotQ_nil_left, normSq]
  | a :: as, [] => by
    rw [dotQ_nil_right]
    have := normSq_nonneg (a :: as)
    simp [normSq, dotQ_nil_right]
  | x :: xs, y :: ys => by
    have ih := dotQ_sq_le xs ys
    have hA := normSq_nonneg xs
    have hB := normSq_nonneg ys
    rw [dotQ_cons, normSq_cons, normSq_cons]
    set D := dotQ xs ys
    set A := normSq xs
    set B := normSq ys
    rcases eq_or_lt_of_le hB with hB0 | hBpos
    · have hD : D = 0 := by
        have h2 : D ^ 2 ≤ 0 := by rw [← hB0] at ih; simpa using ih
        exact pow_eq_zero_iff (n := 2) (by norm_num) |>.mp (le_antisymm h2 (sq_nonneg D))
      rw [hD, ← hB0]
      nlinarith [mul_nonneg hA (sq_nonneg y)]
    · nlinarith [sq_nonneg (x * B - y * D),
        mul_nonneg (add_nonneg (sq_nonneg y) hB) (sub_nonneg.mpr ih), hBpos,
        mul_pos hBpos hBpos]

theorem normSq_pos {a : List ℚ} (h : normSq a ≠ 0) : 0 < normSq a :=
  lt_of_le_of_ne (normSq_nonneg a) (Ne.symm h)

theorem vnorm_nonneg (a : List ℚ) : 0 ≤ vnorm a := Real.sqrt_nonneg _

theorem vnorm_pos {a : List ℚ} (h : normSq a ≠ 0) : 0 < vnorm a := by
  apply Real.sqrt_pos.mpr
  exact_mod_cast normSq_pos h

/-- Evaluation helper: the norm of a vector whose squared norm is the square
of a nonnegative rational. -/
theorem vnorm_eq {v : List ℚ} {q : ℚ} {y : ℝ} (h : normSq v = q) (hy : 0 ≤ y)
    (h2 : (q : ℝ) = y * y) : vnorm v = y := by
  rw [vnorm, h, h2, Real.sqrt_mul_self hy]

/-- A raw cosine always lies in `[-1, 1]` when both norms are nonzero. -/
theorem abs_cosSim_le_one {a b : List ℚ} (ha : normSq a ≠ 0) (hb : normSq b ≠ 0) :
    |cosSim a b| ≤ 1 := by
  have hA : (0 : ℝ) < ((normSq a : ℚ) : ℝ) := by exact_mod_cast normSq_pos ha
  have hna : 0 < vnorm a := vnorm_pos ha
  have hnb : 0 < vnorm b := vnorm_pos hb
  have key : (((dotQ a b : ℚ) : ℝ)) ^ 2 ≤ ((normSq a : ℚ) : ℝ) * ((normSq b : ℚ) : ℝ) := by
    exact_mod_cast dotQ_sq_le a b
  have habs : |((dotQ a b : ℚ) : ℝ)| ≤ vnorm a * vnorm b := by
    have h1 : |((dotQ a b : ℚ) : ℝ)| = Real.sqrt (((dotQ a b : ℚ) : ℝ) ^ 2) :=
      (Real.sqrt_sq_eq_abs _).symm
    rw [h1, vnorm, vnorm, ← Real.sqrt_mul (le_of_lt hA)]
    exact Real.sqrt_le_sqrt key
  rw [cosSim, abs_div, abs_of_pos (mul_pos hna hnb)]
  exact (div_le_one (mul_pos hna hnb)).mpr habs

theorem simsOf_mem_abs_le :
    ∀ (qs : List (List ℚ)) (c : List ℚ), ∀ x ∈ simsOf qs c, |x| ≤ 1
  | [], c => by simp [simsOf]
  | v :: vs, c => by
    intro x hx
    rw [simsOf] at hx
    by_cases h : normSq v ≠ 0 ∧ normSq c ≠ 0
    · rw [if_pos h] at hx
      rcases List.mem_cons.mp hx with rfl | h'
      · exact abs_cosSim_le_one h.1 h.2
      · exact simsOf_mem_abs_le vs c x h'
    · rw [if_neg h] at hx
      exact simsOf_mem_abs_le vs c x hx

/-- The search-path skills sub-score is only bounded in `[-1, 1]`: the
source takes a maximum of raw, unclamped cosines. -/
theorem abs_skills_similarity_le_one (qs : List (List ℚ)) (c : List ℚ) :
    |calculate_skills_similarity qs c| ≤ 1 := by
  rw [calculate_skills_similarity]
  split
  · simp
  · rw [abs_le]
    constructor
    · exact lo_le_pyMax (by norm_num)
        (fun y hy => neg_le_of_abs_le (simsOf_mem_abs_le qs c y hy))
    · exact pyMax_le (by norm_num)
        (fun y hy => le_of_abs_le (simsOf_mem_abs_le qs c y hy))

/-- The ranking-path skills sub-score is clamped into `[0, 1]`. -/
theorem skills_match_mem (c j : List ℚ) :
    0 ≤ calculate_skills_match c j ∧ calculate_skills_match c j ≤ 1 := by
  rw [calculate_skills_match]
  split
  · norm_num
  · split
    · exact ⟨le_max_left 0 _, max_le (by norm_num) (min_le_left 1 _)⟩
    · norm_num

/-! ### Bounds for the location and experience scores -/

theorem countEqPos_le : ∀ a b : List Char, countEqPos a b ≤ min a.length b.length
  | [], _ => by simp [countEqPos]
  | _ :: _, [] => by simp [countEqPos]
  | x :: xs, y :: ys => by
    have ih := countEqPos_le xs ys
    simp only [countEqPos, List.zipWith_cons_cons, List.sum_cons, List.length_cons,
      Nat.succ_min_succ]
    simp only [countEqPos] at ih
    split <;> omega

theorem partSim_mem (q c : List Char) : 0 ≤ partSim q c ∧ partSim q c ≤ 1 := by
  rw [partSim]
  split_ifs with h1 h2 h3
  · norm_num
  · norm_num
  · norm_num
  · have hpos : (0 : ℚ) < (max q.length c.length : ℚ) := by
      exact_mod_cast Nat.pos_of_ne_zero h3
    constructor
    · positivity
    · rw [div_le_one hpos]
      have hle : countEqPos q c ≤ max q.length c.length :=
        le_trans (countEqPos_le q c) (le_trans (Nat.min_le_left _ _) (Nat.le_max_left _ _))
      exact_mod_cast hle

theorem splitComma_ne_nil : ∀ l : List Char, splitComma l ≠ []
  | [] => by simp [splitComma]
  | c :: rest => by
    rw [splitComma]
    split
    · exact List.cons_ne_nil _ _
    · cases h : splitComma rest <;> simp

theorem lowerParts_length_pos (s : String) : 0 < (lowerParts s).length := by
  rw [lowerParts, List.length_map]
  exact List.length_pos.mpr (splitComma_ne_nil s.data)

/-- The location fuzzy-match score always lies in `[0, 1]`. -/
theorem location_match_mem (q c : String) :
    0 ≤ calculate_location_match q c ∧ calculate_location_match q c ≤ 1 := by
  rw [calculate_location_match]
  split
  · norm_num
  · have hlen : (0 : ℚ) < ((lowerParts q).length : ℚ) := by
      exact_mod_cast lowerParts_length_pos q
    have hmem : ∀ x ∈ (lowerParts q).map
        (fun qp => pyMax ((lowerParts c).map (fun cp => partSim qp cp))),
        0 ≤ x ∧ x ≤ 1 := by
      intro x hx
      rcases List.mem_map.mp hx with ⟨qp, _, rfl⟩
      constructor
      · exact lo_le_pyMax (le_refl 0) (fun y hy => by
          rcases List.mem_map.mp hy with ⟨cp, _, rfl⟩
          exact (partSim_mem qp cp).1)
      · exact pyMax_le zero_le_one (fun y hy => by
          rcases List.mem_map.mp hy with ⟨cp, _, rfl⟩
          exact (partSim_mem qp cp).2)
    constructor
    · apply div_nonneg _ (le_of_lt hlen)
      exact List.sum_nonneg (fun x hx => (hmem x hx).1)
    · rw [div_le_one hlen]
      calc ((lowerParts q).map
            (fun qp => pyMax ((lowerParts c).map (fun cp => partSim qp cp)))).sum
          ≤ ((lowerParts q).map
            (fun qp => pyMax ((lowerParts c).map (fun cp => partSim qp cp)))).length • (1 : ℚ) :=
            List.sum_le_card_nsmul _ 1 (fun x hx => (hmem x hx).2)
        _ = ((lowerParts q).length : ℚ) := by simp

/-- The experience step score always lies in `[0, 1]`. -/
theorem experience_match_mem (x y : Option ℚ) :
    0 ≤ calculate_experience_match x y ∧ calculate_experience_match x y ≤ 1 := by
  match x, y with
  | some c, some r =>
    simp only [calculate_experience_match]
    split_ifs <;> norm_num
  | none, _ => simp [calculate_experience_match]
  | some _, none => simp [calculate_experience_match]

/-! ### Structural description of the two per-candidate loops -/

/-- The search loop state in closed form: each optional sub-score is set iff
its criterion fired, and the running total and weight are the sums described
by `codeContrib` and `codeAppliedWeight`. -/
theorem searchAcc_eq (sv : List (List ℚ)) (loc : Option String) (re : Option ℚ)
    (c : CandidateProfile) :
    searchAcc sv loc re c =
      ⟨(if !sv.isEmpty && !c.resume_vector.isEmpty then
          some (calculate_skills_similarity sv c.resume_vector) else none),
       (if truthyS loc && truthyS c.location then
          some ((calculate_location_match (loc.getD "") (c.location.getD "") : ℚ) : ℝ) else none),
       (if truthyQ re && !(c.total_experience = ExpVal.emptyStr : Bool) then
          some ((calculate_experience_match c.total_experience.toOpt re : ℚ) : ℝ) else none),
       codeContrib sv loc re c,
       codeAppliedWeight sv loc re c⟩ := by
  rw [searchAcc, codeContrib, codeAppliedWeight]
  cases h1 : (!sv.isEmpty && !c.resume_vector.isEmpty) <;>
    cases h2 : (truthyS loc && truthyS c.location) <;>
      cases h3 : (truthyQ re && !(c.total_experience = ExpVal.emptyStr : Bool)) <;>
        simp [h1, h2, h3, SearchAcc.mk.injEq]

/-- The ranking loop state in closed form. -/
theorem rankAcc_eq (job : Job) (c : CandidateProfile) :
    rankAcc job c =
      ⟨(if !job.jd_vector.isEmpty && !c.resume_vector.isEmpty then
          calculate_skills_match c.resume_vector job.jd_vector else 0),
       (if truthyQ job.required_experience && c.total_experience.truthy then
          ((calculate_experience_match c.total_experience.toOpt job.required_experience : ℚ) : ℝ)
        else 0),
       (if truthyS job.location && truthyS c.location then
          ((calculate_location_match (job.location.getD "") (c.location.getD "") : ℚ) : ℝ) else 0),
       (if !job.jd_vector.isEmpty && !c.resume_vector.isEmpty then
          calculate_skills_match c.resume_vector job.jd_vector * 0.4 else 0)
         + (if truthyQ job.required_experience && c.total_experience.truthy then
            ((calculate_experience_match c.total_experience.toOpt job.required_experience : ℚ) : ℝ)
              * 0.3
          else 0)
         + (if truthyS job.location && truthyS c.location then
            ((calculate_location_match (job.location.getD "") (c.location.getD "") : ℚ) : ℝ) * 0.1
          else 0)⟩ := by
  rw [rankAcc]
  cases h1 : (!job.jd_vector.isEmpty && !c.resume_vector.isEmpty) <;>
    cases h2 : (truthyQ job.required_experience && c.total_experience.truthy) <;>
      cases h3 : (truthyS job.location && truthyS c.location) <;>
        simp [h1, h2, h3, RankAcc.mk.injEq]

/-! ### The sort orders are transitive, total and respect equal scores -/

theorem searchLE_trans (a b c : CandidateProfile × SearchScores) :
    searchLE a b → searchLE b c → searchLE a c := by
  simp only [searchLE, decide_eq_true_eq]
  exact fun hab hbc => le_trans hbc hab

theorem searchLE_total (a b : CandidateProfile × SearchScores) :
    searchLE a b || searchLE b a := by
  simp only [searchLE]
  rcases le_total b.2.total_score a.2.total_score with h | h <;> simp [h]

theorem rankLE_trans (a b c : CandidateProfile × RankAcc) :
    rankLE a b → rankLE b c → rankLE a c := by
  simp only [rankLE, decide_eq_true_eq]
  exact fun hab hbc => le_trans hbc hab

theorem rankLE_total (a b : CandidateProfile × RankAcc) :
    rankLE a b || rankLE b a := by
  simp only [rankLE]
  rcases le_total b.2.total a.2.total with h | h <;> simp [h]

theorem mergeSortPair {α : Type} (a b : α) (le : α → α → Bool) :
    List.mergeSort [a, b] le = if le a b then [a, b] else [b, a] := by
  simp [List.mergeSort, List.splitInTwo, List.merge]

/-! ### Concrete evaluations -/

theorem normSq_q10 : normSq [(10 : ℚ), 0, 0, 0] = 100 := by
  simp [normSq, dotQ]; norm_num

theorem normSq_a : normSq [(9 : ℚ), 3, 3, 1] = 100 := by
  simp [normSq, dotQ]; norm_num

theorem normSq_b : normSq [(1 : ℚ), 1, 1, 1] = 4 := by
  simp [normSq, dotQ]; norm_num

theorem normSq_one : normSq [(1 : ℚ)] = 1 := by
  simp [normSq, dotQ]

theorem normSq_neg : normSq [(-1 : ℚ), 7, 7, 1] = 100 := by
  simp [normSq, dotQ]; norm_num

theorem vnorm_q10 : vnorm [(10 : ℚ), 0, 0, 0] = 10 := vnorm_eq normSq_q10 (by norm_num) (by norm_num)

theorem vnorm_a : vnorm [(9 : ℚ), 3, 3, 1] = 10 := vnorm_eq normSq_a (by norm_num) (by norm_num)

theorem vnorm_b : vnorm [(1 : ℚ), 1, 1, 1] = 2 := vnorm_eq normSq_b (by norm_num) (by norm_num)

theorem vnorm_one : vnorm [(1 : ℚ)] = 1 := vnorm_eq normSq_one (by norm_num) (by norm_num)

theorem vnorm_neg : vnorm [(-1 : ℚ), 7, 7, 1] = 10 := vnorm_eq normSq_neg (by norm_num) (by norm_num)

theorem cosSim_a : cosSim [(10 : ℚ), 0, 0, 0] [9, 3, 3, 1] = 9 / 10 := by
  rw [cosSim, vnorm_q10, vnorm_a]
  norm_num [dotQ]

theorem cosSim_b : cosSim [(10 : ℚ), 0, 0, 0] [1, 1, 1, 1] = 1 / 2 := by
  rw [cosSim, vnorm_q10, vnorm_b]
  norm_num [dotQ]

theorem cosSim_one : cosSim [(1 : ℚ)] [1] = 1 := by
  rw [cosSim, vnorm_one]
  norm_num [dotQ]

theorem cosSim_neg : cosSim [(10 : ℚ), 0, 0, 0] [-1, 7, 7, 1] = -(1 / 10) := by
  rw [cosSim, vnorm_q10, vnorm_neg]
  norm_num [dotQ]

theorem css_a : calculate_skills_similarity [[(10 : ℚ), 0, 0, 0]] [9, 3, 3, 1] = 9 / 10 := by
  simp [calculate_skills_similarity, simsOf, pyMax, normSq_q10, normSq_a, cosSim_a]

theorem css_b : calculate_skills_similarity [[(10 : ℚ), 0, 0, 0]] [1, 1, 1, 1] = 1 / 2 := by
  simp [calculate_skills_similarity, simsOf, pyMax, normSq_q10, normSq_b, cosSim_b]

theorem css_one : calculate_skills_similarity [[(1 : ℚ)]] [1] = 1 := by
  simp [calculate_skills_similarity, simsOf, pyMax, normSq_one, cosSim_one]

theorem css_neg : calculate_skills_similarity [[(10 : ℚ), 0, 0, 0]] [-1, 7, 7, 1] = -(1 / 10) := by
  simp [calculate_skills_similarity, simsOf, pyMax, normSq_q10, normSq_neg, cosSim_neg]

theorem csm_one : calculate_skills_match [(1 : ℚ)] [1] = 1 := by
  simp [calculate_skills_match, normSq_one, cosSim_one]

theorem lm_austin : calculate_location_match "Austin, TX" "Austin, TX" = 1 := by
  simp +decide [calculate_location_match, lowerParts, partSim, pyMax, splitComma, trimWs,
    hasSeg, headSeg, countEqPos]

theorem cem_exact : calculate_experience_match (some (5 : ℚ)) (some 5) = 1 := by
  simp [calculate_experience_match]

theorem searchAcc_candA :
    searchAcc [[(10 : ℚ), 0, 0, 0]] (some "Austin, TX") (some 5) candA
      = ⟨some (9 / 10), none, none, (9 / 10) * 0.6, 0 + 0.6⟩ := by
  simp +decide [searchAcc, candA, truthyS, truthyQ, css_a]

theorem candidateResult_candA :
    candidateResult [[(10 : ℚ), 0, 0, 0]] (some "Austin, TX") (some 5) 0.5 candA
      = some (candA, ⟨9 / 10, 0, 0, 9 / 10⟩) := by
  rw [candidateResult, searchAcc_candA]
  rw [if_pos (by norm_num)]
  norm_num

theorem searchAcc_candB :
    searchAcc [[(10 : ℚ), 0, 0, 0]] (some "Austin, TX") (some 5) candB
      = ⟨some (1 / 2), some 1, some 1, ((1 / 2) * 0.6 + 1 * 0.2) + 1 * 0.2,
          ((0 + 0.6) + 0.2) + 0.2⟩ := by
  simp +decide [searchAcc, candB, truthyS, truthyQ, ExpVal.toOpt, cem_exact, lm_austin, css_b]

theorem candidateResult_candB :
    candidateResult [[(10 : ℚ), 0, 0, 0]] (some "Austin, TX") (some 5) 0.5 candB
      = some (candB, ⟨1 / 2, 1, 1, 7 / 10⟩) := by
  rw [candidateResult, searchAcc_candB]
  rw [if_pos (by norm_num)]
  norm_num

/-- The worked search example: input order `[candB, candA]`, output re-sorted
to `[candA, candB]` with totals 0.9 and 0.7. -/
theorem searchEval_example :
    search_candidates [candB, candA] [[(10 : ℚ), 0, 0, 0]] (some "Austin, TX") (some 5) 0.5 10
      = [(candA, ⟨9 / 10, 0, 0, 9 / 10⟩), (candB, ⟨1 / 2, 1, 1, 7 / 10⟩)] := by
  rw [search_candidates]
  rw [show List.filterMap
        (candidateResult [[(10 : ℚ), 0, 0, 0]] (some "Austin, TX") (some 5) 0.5) [candB, candA]
      = [(candB, ⟨1 / 2, 1, 1, 7 / 10⟩), (candA, ⟨9 / 10, 0, 0, 9 / 10⟩)] by
    simp [List.filterMap, candidateResult_candA, candidateResult_candB]]
  rw [mergeSortPair]
  rw [show searchLE (candB, ⟨1 / 2, 1, 1, 7 / 10⟩) (candA, ⟨9 / 10, 0, 0, 9 / 10⟩) = false by
    simp only [searchLE, decide_eq_false_iff_not]
    norm_num]
  simp

theorem searchAcc_candNull :
    searchAcc [[(1 : ℚ)]] none (some 5) candNull
      = ⟨some 1, none, some 0, (0 + 1 * 0.6) + 0 * 0.2, (0 + 0.6) + 0.2⟩ := by
  simp +decide [searchAcc, candNull, truthyS, truthyQ, ExpVal.toOpt, calculate_experience_match,
    css_one]

theorem candidateResult_candNull :
    candidateResult [[(1 : ℚ)]] none (some 5) 0.5 candNull
      = some (candNull, ⟨1, 0, 0, 3 / 4⟩) := by
  rw [candidateResult, searchAcc_candNull]
  rw [if_pos (by norm_num)]
  norm_num

/-- The `None`-experience candidate: the experience criterion contributes its
weight with sub-score 0, so the final score is 0.6/0.8 = 0.75. -/
theorem searchEval_null :
    search_candidates [candNull] [[(1 : ℚ)]] none (some 5) 0.5 10
      = [(candNull, ⟨1, 0, 0, 3 / 4⟩)] := by
  rw [search_candidates]
  rw [show List.filterMap (candidateResult [[(1 : ℚ)]] none (some 5) 0.5) [candNull]
      = [(candNull, ⟨1, 0, 0, 3 / 4⟩)] by
    simp [List.filterMap, candidateResult_candNull]]
  simp

theorem searchAcc_candNeg :
    searchAcc [[(10 : ℚ), 0, 0, 0]] (some "Austin, TX") (some 5) candNeg
      = ⟨some (-(1 / 10)), some 1, some 1, ((-(1 / 10)) * 0.6 + 1 * 0.2) + 1 * 0.2,
          ((0 + 0.6) + 0.2) + 0.2⟩ := by
  simp +decide [searchAcc, candNeg, truthyS, truthyQ, ExpVal.toOpt, cem_exact, lm_austin, css_neg]

theorem candidateResult_candNeg :
    candidateResult [[(10 : ℚ), 0, 0, 0]] (some "Austin, TX") (some 5) 0.3 candNeg
      = some (candNeg, ⟨-(1 / 10), 1, 1, 17 / 50⟩) := by
  rw [candidateResult, searchAcc_candNeg]
  rw [if_pos (by norm_num)]
  norm_num

/-- A produced match result whose skills sub-score is negative. -/
theorem searchEval_neg :
    search_candidates [candNeg] [[(10 : ℚ), 0, 0, 0]] (some "Austin, TX") (some 5) 0.3 10
      = [(candNeg, ⟨-(1 / 10), 1, 1, 17 / 50⟩)] := by
  rw [search_candidates]
  rw [show List.filterMap
        (candidateResult [[(10 : ℚ), 0, 0, 0]] (some "Austin, TX") (some 5) 0.3) [candNeg]
      = [(candNeg, ⟨-(1 / 10), 1, 1, 17 / 50⟩)] by
    simp [List.filterMap, candidateResult_candNeg]]
  simp

theorem rankAcc_candRA :
    rankAcc jobJ candRA = ⟨1, 1, 0, (0 + 1 * 0.4) + 1 * 0.3⟩ := by
  simp +decide [rankAcc, jobJ, candRA, truthyS, truthyQ, ExpVal.truthy, ExpVal.toOpt,
    cem_exact, csm_one]

theorem rankAcc_candRB :
    rankAcc jobJ candRB = ⟨1, 0, 0, 0 + 1 * 0.4⟩ := by
  simp +decide [rankAcc, jobJ, candRB, truthyS, truthyQ, ExpVal.truthy, csm_one]

theorem rankResult_candRA :
    rankResult jobJ 0.5 candRA = some (candRA, ⟨1, 1, 0, 7 / 10⟩) := by
  rw [rankResult, rankAcc_candRA]
  rw [if_pos (by norm_num)]
  norm_num

theorem rankResult_candRB : rankResult jobJ 0.5 candRB = none := by
  rw [rankResult, rankAcc_candRB]
  rw [if_neg (by norm_num)]

/-- The worked ranking example: A scores 0.7 and is returned, B scores 0.4
and is excluded by the 0.5 threshold. -/
theorem rankEval_example :
    rank_candidates_for_job [jobJ] [candRA, candRB] 1 0.5 10
      = [(candRA, ⟨1, 1, 0, 7 / 10⟩)] := by
  simp only [rank_candidates_for_job,
    show List.find? (fun j => j.id == (1 : ℤ)) [jobJ] = some jobJ by
      simp +decide [List.find?, jobJ]]
  rw [show List.filterMap (rankResult jobJ 0.5) [candRA, candRB]
      = [(candRA, ⟨1, 1, 0, 7 / 10⟩)] by
    simp [List.filterMap, rankResult_candRA, rankResult_candRB]]
  simp

/-! ### What membership in a result set implies -/

/-- Anything in the search output was gated exactly by the loop tail: its
candidate came from the snapshot, the applied weight is positive, the final
score cleared the threshold, and the stored score bundle is the loop's
closed form. -/
theorem search_result_spec {sv : List (List ℚ)} {loc : Option String} {re : Option ℚ}
    {m : ℝ} {lim : ℕ} {cands : List CandidateProfile} {r : CandidateProfile × SearchScores}
    (hr : r ∈ search_candidates cands sv loc re m lim) :
    r.1 ∈ cands
    ∧ 0 < codeAppliedWeight sv loc re r.1
    ∧ m ≤ codeContrib sv loc re r.1 / codeAppliedWeight sv loc re r.1
    ∧ r.2 = ⟨(if !sv.isEmpty && !r.1.resume_vector.isEmpty then
            calculate_skills_similarity sv r.1.resume_vector else 0),
          (if truthyS loc && truthyS r.1.location then
            ((calculate_location_match (loc.getD "") (r.1.location.getD "") : ℚ) : ℝ) else 0),
          (if truthyQ re && !(r.1.total_experience = ExpVal.emptyStr : Bool) then
            ((calculate_experience_match r.1.total_experience.toOpt re : ℚ) : ℝ) else 0),
          codeContrib sv loc re r.1 / codeAppliedWeight sv loc re r.1⟩ := by
  rw [search_candidates] at hr
  have hr1 := List.mem_mergeSort.mp (List.mem_of_mem_take hr)
  rcases List.mem_filterMap.mp hr1 with ⟨c, hc, heq⟩
  rw [candidateResult] at heq
  by_cases hw : 0 < (searchAcc sv loc re c).weight
  · rw [if_pos hw] at heq
    by_cases hm : m ≤ (searchAcc sv loc re c).total / (searchAcc sv loc re c).weight
    · rw [if_pos hm] at heq
      obtain rfl := Option.some.inj heq
      rw [searchAcc_eq] at hw hm
      simp only at hw hm
      refine ⟨hc, hw, hm, ?_⟩
      simp only [searchAcc_eq]
      cases hb1 : (!sv.isEmpty && !c.resume_vector.isEmpty) <;>
        cases hb2 : (truthyS loc && truthyS c.location) <;>
          cases hb3 : (truthyQ re && !(c.total_experience = ExpVal.emptyStr : Bool)) <;>
            simp [hb1, hb2, hb3]
    · rw [if_neg hm] at heq
      simp at heq
  · rw [if_neg hw] at heq
    simp at heq

/-- Anything in the ranking output comes from a found job, a candidate of
the snapshot, carries exactly the loop's scores, and cleared the
threshold. -/
theorem rank_result_spec {jobs : List Job} {cands : List CandidateProfile} {job_id : ℤ}
    {m : ℝ} {lim : ℕ} {r : CandidateProfile × RankAcc}
    (hr : r ∈ rank_candidates_for_job jobs cands job_id m lim) :
    ∃ job, jobs.find? (fun j => j.id == job_id) = some job
      ∧ r.1 ∈ cands ∧ m ≤ (rankAcc job r.1).total ∧ r.2 = rankAcc job r.1 := by
  rw [rank_candidates_for_job] at hr
  rcases hfind : jobs.find? (fun j => j.id == job_id) with _ | job
  · rw [hfind] at hr
    simp at hr
  · rw [hfind] at hr
    simp only [] at hr
    by_cases hemp : cands.isEmpty
    · rw [if_pos hemp] at hr
      simp at hr
    · rw [if_neg hemp] at hr
      have hr1 := List.mem_mergeSort.mp (List.mem_of_mem_take hr)
      rcases List.mem_filterMap.mp hr1 with ⟨c, hc, heq⟩
      rw [rankResult] at heq
      split_ifs at heq with hm
      obtain rfl := Option.some.inj heq
      exact ⟨job, hfind, hc, hm, rfl⟩

/-- The accumulated contribution is bounded in magnitude by the accumulated
applied weight (each sub-score has magnitude at most 1). -/
theorem abs_codeContrib_le (sv : List (List ℚ)) (loc : Option String) (re : Option ℚ)
    (c : CandidateProfile) :
    |codeContrib sv loc re c| ≤ codeAppliedWeight sv loc re c := by
  have h1 := abs_le.mp (abs_skills_similarity_le_one sv c.resume_vector)
  have h2 := location_match_mem (loc.getD "") (c.location.getD "")
  have h3 := experience_match_mem c.total_experience.toOpt re
  have h2a : (0 : ℝ) ≤ ((calculate_location_match (loc.getD "") (c.location.getD "") : ℚ) : ℝ) := by
    exact_mod_cast h2.1
  have h2b : ((calculate_location_match (loc.getD "") (c.location.getD "") : ℚ) : ℝ) ≤ 1 := by
    exact_mod_cast h2.2
  have h3a : (0 : ℝ) ≤ ((calculate_experience_match c.total_experience.toOpt re : ℚ) : ℝ) := by
    exact_mod_cast h3.1
  have h3b : ((calculate_experience_match c.total_experience.toOpt re : ℚ) : ℝ) ≤ 1 := by
    exact_mod_cast h3.2
  rw [codeContrib, codeAppliedWeight]
  cases hb1 : (!sv.isEmpty && !c.resume_vector.isEmpty) <;>
    cases hb2 : (truthyS loc && truthyS c.location) <;>
      cases hb3 : (truthyQ re && !(c.total_experience = ExpVal.emptyStr : Bool)) <;>
        simp only [Bool.false_eq_true, if_true, if_false, zero_add, add_zero, abs_zero,
          le_refl] <;>
        (rw [abs_le]; constructor <;> linarith [h1.1, h1.2])

/-! ### Claim C1 -/

/-- Claim C1 fails as stated: for a candidate whose `total_experience` is
Python `None` (missing data) and a supplied `required_experience`, the
source's `total_experience != ""` test does not skip the experience
criterion — the weight 0.2 is applied with sub-score 0, giving final score
(1·0.6 + 0·0.2)/0.8 = 0.75 where the claim's applied-criteria formula gives
0.6/0.6 = 1. -/
theorem C1_counterexample :
    search_candidates [candNull] [[(1 : ℚ)]] none (some 5) 0.5 10
      = [(candNull, ⟨1, 0, 0, 3 / 4⟩)]
    ∧ claimSearchTotal [[(1 : ℚ)]] none (some 5) candNull = 1
    ∧ ((3 / 4 : ℝ)) ≠ 1 := by
  refine ⟨searchEval_null, ?_, by norm_num⟩
  rw [claimSearchTotal, claimContrib, claimAppliedWeight]
  simp +decide [candNull, truthyS, truthyQ, ExpVal.isNum, css_one]
  norm_num

/-- Claim C1 (amended): in the Search Orchestrator, every returned match
result has positive applied weight (zero-weight candidates are excluded
regardless of `min_score`) and its total score equals the accumulated
contribution divided by the accumulated applied weight (defaults skills 0.6,
location 0.2, experience 0.2), where a supplied skills or location criterion
with missing per-candidate data contributes neither score nor weight, but
the experience criterion is only skipped for the `""` sentinel: a `None`
experience value contributes weight 0.2 with sub-score 0. For any candidate
whose experience value is not `None`, this coincides with the claim's own
applied-criteria formula. -/
theorem C1_search_score_normalization :
    ∀ (sv : List (List ℚ)) (loc : Option String) (re : Option ℚ) (m : ℝ) (lim : ℕ)
      (cands : List CandidateProfile) (r : CandidateProfile × SearchScores),
      r ∈ search_candidates cands sv loc re m lim →
        0 < codeAppliedWeight sv loc re r.1
        ∧ r.2.total_score = codeContrib sv loc re r.1 / codeAppliedWeight sv loc re r.1
        ∧ (r.1.total_experience ≠ ExpVal.null →
            codeAppliedWeight sv loc re r.1 = claimAppliedWeight sv loc re r.1
            ∧ codeContrib sv loc re r.1 = claimContrib sv loc re r.1) := by
  intro sv loc re m lim cands r hr
  obtain ⟨-, hw, -, hbundle⟩ := search_result_spec hr
  refine ⟨hw, by rw [hbundle], ?_⟩
  intro hne
  rcases hte : r.1.total_experience with _ | _ | q
  · exact absurd hte hne
  · constructor <;>
      simp [codeAppliedWeight, claimAppliedWeight, codeContrib, claimContrib, hte, ExpVal.isNum]
  · constructor <;>
      simp [codeAppliedWeight, claimAppliedWeight, codeContrib, claimContrib, hte, ExpVal.isNum]

theorem C1_witness :
    0 < codeAppliedWeight [[(1 : ℚ)]] none (some 5) candNull
    ∧ (3 / 4 : ℝ) = codeContrib [[(1 : ℚ)]] none (some 5) candNull
        / codeAppliedWeight [[(1 : ℚ)]] none (some 5) candNull := by
  have h := C1_search_score_normalization [[(1 : ℚ)]] none (some 5) 0.5 10 [candNull]
    (candNull, ⟨1, 0, 0, 3 / 4⟩) (by rw [searchEval_null]; exact List.mem_singleton_self _)
  exact ⟨h.1, h.2.1⟩

/-! ### Claim C4 -/

/-- The experience step function is antitone in the (nonnegative) gap. -/
theorem expStep_anti {d1 d2 : ℚ} (h0 : 0 ≤ d1) (h : d1 ≤ d2) :
    (if d2 = 0 then (1 : ℚ) else if d2 ≤ 1 then 9 / 10 else if d2 ≤ 2 then 7 / 10
      else if d2 ≤ 3 then 1 / 2 else if d2 ≤ 4 then 3 / 10 else 1 / 10)
    ≤ (if d1 = 0 then (1 : ℚ) else if d1 ≤ 1 then 9 / 10 else if d1 ≤ 2 then 7 / 10
      else if d1 ≤ 3 then 1 / 2 else if d1 ≤ 4 then 3 / 10 else 1 / 10) := by
  rcases eq_or_lt_of_le h0 with h1 | h1
  · rw [← h1] at h ⊢
    simp only [if_pos rfl]
    split_ifs <;> norm_num
  · rw [if_neg (ne_of_gt h1), if_neg (ne_of_gt (lt_of_lt_of_le h1 h))]
    split_ifs <;> linarith

/-- Claim C4: for present inputs the experience-gap score is the exact step
function of the absolute difference (0 → 1.0, ≤1 → 0.9, ≤2 → 0.7, ≤3 → 0.5,
≤4 → 0.3, else 0.1); hence it is 1.0 at equal years, monotonically
non-increasing in the gap, and never below 0.1; an absent input yields 0. -/
theorem C4_experience_step :
    (∀ x y : ℚ, calculate_experience_match (some x) (some y) =
        (if |x - y| = 0 then 1 else if |x - y| ≤ 1 then 9 / 10 else if |x - y| ≤ 2 then 7 / 10
          else if |x - y| ≤ 3 then 1 / 2 else if |x - y| ≤ 4 then 3 / 10 else 1 / 10))
    ∧ (∀ x : ℚ, calculate_experience_match (some x) (some x) = 1)
    ∧ (∀ x y x' y' : ℚ, |x - y| ≤ |x' - y'| →
        calculate_experience_match (some x') (some y')
          ≤ calculate_experience_match (some x) (some y))
    ∧ (∀ x y : ℚ, 1 / 10 ≤ calculate_experience_match (some x) (some y))
    ∧ (∀ y, calculate_experience_match none y = 0)
    ∧ (∀ x, calculate_experience_match x none = 0) := by
  refine ⟨fun x y => rfl, fun x => by simp [calculate_experience_match], ?_, ?_,
    fun y => rfl, ?_⟩
  · intro x y x' y' hle
    simp only [calculate_experience_match]
    exact expStep_anti (abs_nonneg _) hle
  · intro x y
    simp only [calculate_experience_match]
    split_ifs <;> norm_num
  · intro x
    cases x <;> rfl

theorem C4_witness :
    calculate_experience_match (some (8 : ℚ)) (some 5)
      ≤ calculate_experience_match (some (6 : ℚ)) (some 5) :=
  C4_experience_step.2.2.1 6 5 8 5 (by
    rw [show (6 : ℚ) - 5 = 1 by norm_num, show (8 : ℚ) - 5 = 3 by norm_num]
    rw [abs_of_nonneg (by norm_num : (0:ℚ) ≤ 1), abs_of_nonneg (by norm_num : (0:ℚ) ≤ 3)]
    norm_num)

/-! ### Claim C2 -/

/-- Claim C2: the Ranking Orchestrator's total is the un-normalized sum of
`sub_score * weight` over the applicable criteria (skills 0.4,
experience 0.3, location 0.1) — no division by applied weight, and a
candidate with fewer applicable criteria is scored with the others at 0.
In the worked example (job requiring 5.0 years), candidate A (5.0 years,
skills cosine 1.0) totals 0.7, candidate B (no experience data, skills
cosine 1.0) totals 0.4, and with `min_score` 0.5 only A is returned. -/
theorem C2_rank_unnormalized_total :
    (∀ (job : Job) (c : CandidateProfile),
      (rankAcc job c).total
        = (rankAcc job c).skills_score * 0.4 + (rankAcc job c).experience_score * 0.3
          + (rankAcc job c).location_score * 0.1)
    ∧ rank_candidates_for_job [jobJ] [candRA, candRB] 1 0.5 10 = [(candRA, ⟨1, 1, 0, 7 / 10⟩)]
    ∧ (rankAcc jobJ candRA).total = 7 / 10
    ∧ (rankAcc jobJ candRB).total = 2 / 5 := by
  refine ⟨?_, rankEval_example, ?_, ?_⟩
  · intro job c
    rw [rankAcc_eq]
    cases hb1 : (!job.jd_vector.isEmpty && !c.resume_vector.isEmpty) <;>
      cases hb2 : (truthyQ job.required_experience && c.total_experience.truthy) <;>
        cases hb3 : (truthyS job.location && truthyS c.location) <;>
          simp [hb1, hb2, hb3]
  · rw [rankAcc_candRA]
    norm_num
  · rw [rankAcc_candRB]
    norm_num

/-! ### Claim C3 -/

/-- Claim C3 fails as stated: the search path stores the unclamped cosine as
its skills sub-score, and a produced match result can carry a negative
skills sub-score (here −0.1, outside `[0.0, 1.0]`). -/
theorem C3_counterexample :
    search_candidates [candNeg] [[(10 : ℚ), 0, 0, 0]] (some "Austin, TX") (some 5) 0.3 10
      = [(candNeg, ⟨-(1 / 10), 1, 1, 17 / 50⟩)]
    ∧ ((-(1 / 10) : ℝ) < 0) :=
  ⟨searchEval_neg, by norm_num⟩

/-- Claim C3 (amended): in every produced match result, the location and
experience sub-scores lie in `[0, 1]`; the ranking path's skills sub-score
and all ranking sub-scores lie in `[0, 1]` and its total in `[0, 0.8]` (the
sum of the consumed weights); but the search path's skills sub-score — an
unclamped best-of-batch cosine — and its normalized total are only bounded
in `[-1, 1]`. -/
theorem C3_score_bounds :
    (∀ (sv : List (List ℚ)) (loc : Option String) (re : Option ℚ) (m : ℝ) (lim : ℕ)
        (cands : List CandidateProfile) (r : CandidateProfile × SearchScores),
      r ∈ search_candidates cands sv loc re m lim →
        (0 ≤ r.2.location_score ∧ r.2.location_score ≤ 1)
        ∧ (0 ≤ r.2.experience_score ∧ r.2.experience_score ≤ 1)
        ∧ (-1 ≤ r.2.skills_score ∧ r.2.skills_score ≤ 1)
        ∧ (-1 ≤ r.2.total_score ∧ r.2.total_score ≤ 1))
    ∧ (∀ (jobs : List Job) (cands : List CandidateProfile) (job_id : ℤ) (m : ℝ) (lim : ℕ)
        (r : CandidateProfile × RankAcc),
      r ∈ rank_candidates_for_job jobs cands job_id m lim →
        (0 ≤ r.2.skills_score ∧ r.2.skills_score ≤ 1)
        ∧ (0 ≤ r.2.experience_score ∧ r.2.experience_score ≤ 1)
        ∧ (0 ≤ r.2.location_score ∧ r.2.location_score ≤ 1)
        ∧ (0 ≤ r.2.total ∧ r.2.total ≤ 0.8)) := by
  constructor
  · intro sv loc re m lim cands r hr
    obtain ⟨-, hw, -, hbundle⟩ := search_result_spec hr
    have h1 := abs_le.mp (abs_skills_similarity_le_one sv r.1.resume_vector)
    have h2 := location_match_mem (loc.getD "") (r.1.location.getD "")
    have h3 := experience_match_mem r.1.total_experience.toOpt re
    have h2a : (0 : ℝ) ≤ ((calculate_location_match (loc.getD "") (r.1.location.getD "") : ℚ) : ℝ) := by
      exact_mod_cast h2.1
    have h2b : ((calculate_location_match (loc.getD "") (r.1.location.getD "") : ℚ) : ℝ) ≤ 1 := by
      exact_mod_cast h2.2
    have h3a : (0 : ℝ) ≤ ((calculate_experience_match r.1.total_experience.toOpt re : ℚ) : ℝ) := by
      exact_mod_cast h3.1
    have h3b : ((calculate_experience_match r.1.total_experience.toOpt re : ℚ) : ℝ) ≤ 1 := by
      exact_mod_cast h3.2
    have htot : |codeContrib sv loc re r.1 / codeAppliedWeight sv loc re r.1| ≤ 1 := by
      rw [abs_div, abs_of_pos hw]
      exact (div_le_one hw).mpr (abs_codeContrib_le sv loc re r.1)
    simp only [hbundle]
    refine ⟨?_, ?_, ?_, abs_le.mp htot⟩
    · split_ifs with hb
      · exact ⟨h2a, h2b⟩
      · norm_num
    · split_ifs with hb
      · exact ⟨h3a, h3b⟩
      · norm_num
    · split_ifs with hb
      · exact ⟨h1.1, h1.2⟩
      · norm_num
  · intro jobs cands job_id m lim r hr
    obtain ⟨job, -, -, -, hacc⟩ := rank_result_spec hr
    have h1 := skills_match_mem r.1.resume_vector job.jd_vector
    have h2 := experience_match_mem r.1.total_experience.toOpt job.required_experience
    have h3 := location_match_mem (job.location.getD "") (r.1.location.getD "")
    have h2a : (0 : ℝ) ≤ ((calculate_experience_match r.1.total_experience.toOpt job.required_experience : ℚ) : ℝ) := by
      exact_mod_cast h2.1
    have h2b : ((calculate_experience_match r.1.total_experience.toOpt job.required_experience : ℚ) : ℝ) ≤ 1 := by
      exact_mod_cast h2.2
    have h3a : (0 : ℝ) ≤ ((calculate_location_match (job.location.getD "") (r.1.location.getD "") : ℚ) : ℝ) := by
      exact_mod_cast h3.1
    have h3b : ((calculate_location_match (job.location.getD "") (r.1.location.getD "") : ℚ) : ℝ) ≤ 1 := by
      exact_mod_cast h3.2
    simp only [hacc, rankAcc_eq]
    refine ⟨?_, ?_, ?_, ?_⟩
    · split_ifs with hb
      · exact h1
      · norm_num
    · split_ifs with hb
      · exact ⟨h2a, h2b⟩
      · norm_num
    · split_ifs with hb
      · exact ⟨h3a, h3b⟩
      · norm_num
    · split_ifs with hb1 hb2 hb3 <;> constructor <;> linarith [h1.1, h1.2]

theorem C3_witness :
    ((0 : ℝ) ≤ 0 ∧ (0 : ℝ) ≤ 1) ∧ ((0 : ℝ) ≤ 0 ∧ (0 : ℝ) ≤ 1)
    ∧ ((-1 : ℝ) ≤ 9 / 10 ∧ (9 / 10 : ℝ) ≤ 1)
    ∧ ((-1 : ℝ) ≤ 9 / 10 ∧ (9 / 10 : ℝ) ≤ 1) := by
  have h := C3_score_bounds.1 [[(10 : ℚ), 0, 0, 0]] (some "Austin, TX") (some 5) 0.5 10
    [candB, candA] (candA, ⟨9 / 10, 0, 0, 9 / 10⟩)
    (by rw [searchEval_example]; exact List.mem_cons_self _ _)
  exact h

/-! ### Claim C5 -/

/-- Claim C5: the location fuzzy match splits on commas, trims and
lowercases, scores each segment pair (1.0 exact / 0.9 containment /
positional overlap ratio otherwise, per `partSim`), takes per-query-segment
maxima and returns their arithmetic mean; with the three stated concrete
values, where `location_match "Austin" "Austn" = 2/3` is strictly between 0
and 1. -/
theorem C5_location_fuzzy_match :
    (∀ q c : String, q ≠ "" → c ≠ "" →
      calculate_location_match q c =
        ((lowerParts q).map
            (fun qp => pyMax ((lowerParts c).map (fun cp => partSim qp cp)))).sum
          / ((lowerParts q).length : ℚ))
    ∧ calculate_location_match "Austin, TX" "Austin, TX" = 1
    ∧ calculate_location_match "" "Austin" = 0
    ∧ 0 < calculate_location_match "Austin" "Austn"
    ∧ calculate_location_match "Austin" "Austn" < 1 := by
  have h23 : calculate_location_match "Austin" "Austn" = 2 / 3 := by
    simp +decide [calculate_location_match, lowerParts, partSim, pyMax, splitComma, trimWs,
      hasSeg, headSeg, countEqPos]
    norm_num
  refine ⟨?_, lm_austin, by simp [calculate_location_match], ?_, ?_⟩
  · intro q c hq hc
    rw [calculate_location_match, if_neg (by simp [hq, hc])]
  · rw [h23]; norm_num
  · rw [h23]; norm_num

theorem C5_witness :
    calculate_location_match "Austin, TX" "Austin, TX" =
      ((lowerParts "Austin, TX").map
          (fun qp => pyMax ((lowerParts "Austin, TX").map (fun cp => partSim qp cp)))).sum
        / ((lowerParts "Austin, TX").length : ℚ) :=
  C5_location_fuzzy_match.1 "Austin, TX" "Austin, TX" (by decide) (by decide)

/-! ### Claim C6 -/

/-- Claim C6: in the worked search example, the candidate with skills cosine
0.9 and no location/experience data scores 0.9, the one with skills cosine
0.5 and exact location/experience matches scores
(0.5·0.6 + 1·0.2 + 1·0.2)/1 = 0.7, both clear `min_score` 0.5 and the
returned order is `[candA, candB]`. -/
theorem C6_search_worked_example :
    search_candidates [candB, candA] [[(10 : ℚ), 0, 0, 0]] (some "Austin, TX") (some 5) 0.5 10
      = [(candA, ⟨9 / 10, 0, 0, 9 / 10⟩), (candB, ⟨1 / 2, 1, 1, 7 / 10⟩)]
    ∧ calculate_skills_similarity [[(10 : ℚ), 0, 0, 0]] candA.resume_vector = 9 / 10
    ∧ calculate_skills_similarity [[(10 : ℚ), 0, 0, 0]] candB.resume_vector = 1 / 2
    ∧ ((1 / 2 : ℝ) * 0.6 + 1 * 0.2 + 1 * 0.2) / (0.6 + 0.2 + 0.2) = 7 / 10
    ∧ ((9 / 10 : ℝ) * 0.6) / 0.6 = 9 / 10
    ∧ (0.5 : ℝ) ≤ 9 / 10 ∧ (0.5 : ℝ) ≤ 7 / 10 := by
  refine ⟨searchEval_example, ?_, ?_, by norm_num, by norm_num, by norm_num, by norm_num⟩
  · exact css_a
  · exact css_b

/-! ### Claim C8 -/

/-- Claim C8: the ranking operation returns an empty result set without
raising when the job identifier has no record, and likewise when the job
exists but the candidate snapshot is empty. -/
theorem C8_rank_graceful_empty :
    ∀ (jobs : List Job) (cands : List CandidateProfile) (job_id : ℤ) (m : ℝ) (lim : ℕ),
      (jobs.find? (fun j => j.id == job_id) = none →
        rank_candidates_for_job jobs cands job_id m lim = [])
      ∧ rank_candidates_for_job jobs [] job_id m lim = [] := by
  intro jobs cands job_id m lim
  constructor
  · intro h
    rw [rank_candidates_for_job, h]
  · rw [rank_candidates_for_job]
    rcases h : jobs.find? (fun j => j.id == job_id) with _ | job <;> simp [h]

theorem C8_witness : rank_candidates_for_job [] [candRA] 1 0.5 10 = [] :=
  (C8_rank_graceful_empty [] [candRA] 1 0.5 10).1 rfl

/-! ### Claim C9 -/

/-- Claim C9: the summary of an empty result set is all zeros; for a
nonempty result set it reports the count, the mean of the total scores
(sum divided by count), a max that is attained and dominates every score, a
min that is attained and is below every score, and the three fixed-bucket
counts (`total ≥ 0.8`, `0.6 ≤ total < 0.8`, `0.5 ≤ total < 0.6`). -/
theorem C9_search_summary :
    get_search_summary [] = ⟨0, 0, 0, 0, 0, 0, 0⟩
    ∧ ∀ rs : List (CandidateProfile × SearchScores), rs ≠ [] →
        (get_search_summary rs).count = rs.length
        ∧ (get_search_summary rs).avg_score
            = (rs.map (fun r => r.2.total_score)).sum / (rs.length : ℝ)
        ∧ (get_search_summary rs).max_score ∈ rs.map (fun r => r.2.total_score)
        ∧ (∀ x ∈ rs.map (fun r => r.2.total_score), x ≤ (get_search_summary rs).max_score)
        ∧ (get_search_summary rs).min_score ∈ rs.map (fun r => r.2.total_score)
        ∧ (∀ x ∈ rs.map (fun r => r.2.total_score), (get_search_summary rs).min_score ≤ x)
        ∧ (get_search_summary rs).excellent
            = ((rs.map (fun r => r.2.total_score)).filter (fun s => decide ((0.8 : ℝ) ≤ s))).length
        ∧ (get_search_summary rs).good
            = ((rs.map (fun r => r.2.total_score)).filter
                (fun s => decide ((0.6 : ℝ) ≤ s ∧ s < 0.8))).length
        ∧ (get_search_summary rs).fair
            = ((rs.map (fun r => r.2.total_score)).filter
                (fun s => decide ((0.5 : ℝ) ≤ s ∧ s < 0.6))).length := by
  constructor
  · rfl
  · intro rs hne
    have hemp : rs.isEmpty = false := by
      simpa [List.isEmpty_iff] using hne
    have hmap : rs.map (fun r => r.2.total_score) ≠ [] := by
      simpa using hne
    have hmapE : (rs.map (fun r => r.2.total_score)).isEmpty = false := by
      simpa [List.isEmpty_iff] using hmap
    have hmax : (get_search_summary rs).max_score = pyMax (rs.map fun r => r.2.total_score) := by
      simp [get_search_summary, hemp, hmapE]
    have hmin : (get_search_summary rs).min_score = pyMin (rs.map fun r => r.2.total_score) := by
      simp [get_search_summary, hemp, hmapE]
    refine ⟨by simp [get_search_summary, hemp], ?_, ?_, ?_, ?_, ?_, ?_, ?_, ?_⟩
    · simp [get_search_summary, hemp, hmapE, List.length_map]
    · rw [hmax]
      exact pyMax_mem hmap
    · intro x hx
      rw [hmax]
      exact le_pyMax hx
    · rw [hmin]
      exact pyMin_mem hmap
    · intro x hx
      rw [hmin]
      exact pyMin_le hx
    · simp [get_search_summary, hemp, List.countP_eq_length_filter]
    · simp [get_search_summary, hemp, List.countP_eq_length_filter]
    · simp [get_search_summary, hemp, List.countP_eq_length_filter]

theorem C9_witness :
    (get_search_summary [(candA, ⟨9 / 10, 0, 0, 9 / 10⟩)]).count
      = [(candA, (⟨9 / 10, 0, 0, 9 / 10⟩ : SearchScores))].length :=
  (C9_search_summary.2 [(candA, ⟨9 / 10, 0, 0, 9 / 10⟩)] (List.cons_ne_nil _ _)).1

/-! ### Claim C10 -/

/-- Claim C10: a zero-valued experience field is treated as absent. In
search, a supplied `required_experience` of 0.0 behaves exactly like not
supplying it (the criterion contributes neither score nor weight for every
candidate); in ranking, a job `required_experience` of 0.0 behaves like an
absent one, and a candidate `total_experience` of 0.0 behaves like Python
`None` (the experience sub-score stays 0.0 with no weight contribution). -/
theorem C10_zero_experience_absent :
    (∀ (cands : List CandidateProfile) (sv : List (List ℚ)) (loc : Option String)
        (m : ℝ) (lim : ℕ),
      search_candidates cands sv loc (some 0) m lim
        = search_candidates cands sv loc none m lim)
    ∧ (∀ (job : Job) (cands : List CandidateProfile) (m : ℝ) (lim : ℕ),
      rank_candidates_for_job [{job with required_experience := some 0}] cands job.id m lim
        = rank_candidates_for_job [{job with required_experience := none}] cands job.id m lim)
    ∧ (∀ (job : Job) (c : CandidateProfile),
      rankAcc job {c with total_experience := ExpVal.num 0}
        = rankAcc job {c with total_experience := ExpVal.null}) := by
  refine ⟨?_, ?_, ?_⟩
  · intro cands sv loc m lim
    have hcr : candidateResult sv loc (some 0) m = candidateResult sv loc none m := by
      funext c
      rw [candidateResult, candidateResult, searchAcc, searchAcc]
      simp [truthyQ]
    rw [search_candidates, search_candidates, hcr]
  · intro job cands m lim
    have hrr : rankResult {job with required_experience := some 0} m
        = rankResult {job with required_experience := none} m := by
      funext c
      rw [rankResult, rankResult, rankAcc, rankAcc]
      simp [truthyQ]
    rw [rank_candidates_for_job, rank_candidates_for_job,
      show List.find? (fun j => j.id == job.id)
            [({job with required_experience := some 0} : Job)]
          = some ({job with required_experience := some 0} : Job) by simp [List.find?],
      show List.find? (fun j => j.id == job.id)
            [({job with required_experience := none} : Job)]
          = some ({job with required_experience := none} : Job) by simp [List.find?]]
    simp only [hrr]
  · intro job c
    rw [rankAcc, rankAcc]
    simp [ExpVal.truthy]

/-! ### Claim C7 -/

/-- Claim C7: both orchestrators return results sorted in descending order
of total score; the result never exceeds the requested limit; only entries
clearing `min_score` are kept; every returned entry's total dominates every
passing entry that truncation left out; and entries with equal totals keep
their stable filter order in the sorted list. -/
theorem C7_ordering_truncation_stability :
    (∀ (cands : List CandidateProfile) (sv : List (List ℚ)) (loc : Option String)
        (re : Option ℚ) (m : ℝ) (lim : ℕ),
      (search_candidates cands sv loc re m lim).Pairwise
          (fun x y => y.2.total_score ≤ x.2.total_score)
      ∧ (search_candidates cands sv loc re m lim).length ≤ lim
      ∧ (∀ x ∈ search_candidates cands sv loc re m lim, m ≤ x.2.total_score)
      ∧ (∀ x ∈ search_candidates cands sv loc re m lim,
          ∀ y ∈ cands.filterMap (candidateResult sv loc re m),
            y ∉ search_candidates cands sv loc re m lim →
              y.2.total_score ≤ x.2.total_score)
      ∧ (∀ r1 r2 : CandidateProfile × SearchScores,
          List.Sublist [r1, r2] (cands.filterMap (candidateResult sv loc re m)) →
          r1.2.total_score = r2.2.total_score →
          List.Sublist [r1, r2]
            ((cands.filterMap (candidateResult sv loc re m)).mergeSort searchLE)))
    ∧ (∀ (jobs : List Job) (cands : List CandidateProfile) (job_id : ℤ) (m : ℝ) (lim : ℕ),
      (rank_candidates_for_job jobs cands job_id m lim).Pairwise
          (fun x y => y.2.total ≤ x.2.total)
      ∧ (rank_candidates_for_job jobs cands job_id m lim).length ≤ lim
      ∧ (∀ x ∈ rank_candidates_for_job jobs cands job_id m lim, m ≤ x.2.total)
      ∧ (∀ job, jobs.find? (fun j => j.id == job_id) = some job →
          ∀ x ∈ rank_candidates_for_job jobs cands job_id m lim,
            ∀ y ∈ cands.filterMap (rankResult job m),
              y ∉ rank_candidates_for_job jobs cands job_id m lim →
                y.2.total ≤ x.2.total)
      ∧ (∀ (job : Job) (r1 r2 : CandidateProfile × RankAcc),
          List.Sublist [r1, r2] (cands.filterMap (rankResult job m)) →
          r1.2.total = r2.2.total →
          List.Sublist [r1, r2] ((cands.filterMap (rankResult job m)).mergeSort rankLE))) := by
  constructor
  · intro cands sv loc re m lim
    have hsorted : (((cands.filterMap (candidateResult sv loc re m)).mergeSort
        searchLE)).Pairwise (fun x y => y.2.total_score ≤ x.2.total_score) := by
      refine (List.sorted_mergeSort searchLE_trans searchLE_total _).imp ?_
      intro a b h
      simpa [searchLE, decide_eq_true_eq] using h
    refine ⟨?_, ?_, ?_, ?_, ?_⟩
    · rw [search_candidates]
      exact hsorted.sublist (List.take_sublist _ _)
    · rw [search_candidates]
      exact List.length_take_le _ _
    · intro x hx
      obtain ⟨-, -, hm, hbundle⟩ := search_result_spec hx
      simpa [hbundle] using hm
    · intro x hx y hy hyn
      rw [search_candidates] at hx hyn
      have hy' : y ∈ (cands.filterMap (candidateResult sv loc re m)).mergeSort searchLE :=
        List.mem_mergeSort.mpr hy
      have hsplit := List.take_append_drop lim
        ((cands.filterMap (candidateResult sv loc re m)).mergeSort searchLE)
      have hpa : (((cands.filterMap (candidateResult sv loc re m)).mergeSort
          searchLE).take lim
            ++ ((cands.filterMap (candidateResult sv loc re m)).mergeSort
          searchLE).drop lim).Pairwise
          (fun x y => y.2.total_score ≤ x.2.total_score) := by
        rw [hsplit]; exact hsorted
      have hyd : y ∈ ((cands.filterMap (candidateResult sv loc re m)).mergeSort
          searchLE).drop lim := by
        rcases List.mem_append.mp (by rw [hsplit]; exact hy') with h | h
        · exact absurd h hyn
        · exact h
      exact (List.pairwise_append.mp hpa).2.2 x hx y hyd
    · intro r1 r2 hsub heq
      refine List.pair_sublist_mergeSort searchLE_trans searchLE_total ?_ hsub
      simp only [searchLE, decide_eq_true_eq]
      exact le_of_eq heq.symm
  · intro jobs cands job_id m lim
    have hsorted : ∀ job : Job,
        ((cands.filterMap (rankResult job m)).mergeSort rankLE).Pairwise
          (fun x y => y.2.total ≤ x.2.total) := by
      intro job
      refine (List.sorted_mergeSort rankLE_trans rankLE_total _).imp ?_
      intro a b h
      simpa [rankLE, decide_eq_true_eq] using h
    refine ⟨?_, ?_, ?_, ?_, ?_⟩
    · rw [rank_candidates_for_job]
      rcases hf : jobs.find? (fun j => j.id == job_id) with _ | job
      · simp only [hf]
        exact List.Pairwise.nil
      · simp only [hf]
        by_cases hemp : cands.isEmpty
        · rw [if_pos hemp]
          exact List.Pairwise.nil
        · rw [if_neg hemp]
          exact (hsorted job).sublist (List.take_sublist _ _)
    · rw [rank_candidates_for_job]
      rcases hf : jobs.find? (fun j => j.id == job_id) with _ | job
      · simp only [hf]
        simp
      · simp only [hf]
        by_cases hemp : cands.isEmpty
        · rw [if_pos hemp]
          simp
        · rw [if_neg hemp]
          exact List.length_take_le _ _
    · intro x hx
      obtain ⟨job, -, -, hm, hacc⟩ := rank_result_spec hx
      rw [hacc]
      exact hm
    · intro job hfj x hx y hy hyn
      simp only [rank_candidates_for_job, hfj] at hx hyn
      by_cases hemp : cands.isEmpty
      · rw [if_pos hemp] at hx
        exact absurd hx (List.not_mem_nil x)
      · rw [if_neg hemp] at hx hyn
        have hy' : y ∈ (cands.filterMap (rankResult job m)).mergeSort rankLE :=
          List.mem_mergeSort.mpr hy
        have hsplit := List.take_append_drop lim
          ((cands.filterMap (rankResult job m)).mergeSort rankLE)
        have hpa : (((cands.filterMap (rankResult job m)).mergeSort rankLE).take lim
            ++ ((cands.filterMap (rankResult job m)).mergeSort rankLE).drop lim).Pairwise
            (fun x y => y.2.total ≤ x.2.total) := by
          rw [hsplit]; exact hsorted job
        have hyd : y ∈ ((cands.filterMap (rankResult job m)).mergeSort rankLE).drop lim := by
          rcases List.mem_append.mp (by rw [hsplit]; exact hy') with h | h
          · exact absurd h hyn
          · exact h
        exact (List.pairwise_append.mp hpa).2.2 x hx y hyd
    · intro job r1 r2 hsub heq
      refine List.pair_sublist_mergeSort rankLE_trans rankLE_total ?_ hsub
      simp only [rankLE, decide_eq_true_eq]
      exact le_of_eq heq.symm

theorem C7_witness : (0.5 : ℝ) ≤ 9 / 10 ∧ (0.5 : ℝ) ≤ 7 / 10 := by
  constructor
  · exact (C7_ordering_truncation_stability.1 [candB, candA] [[(10 : ℚ), 0, 0, 0]]
      (some "Austin, TX") (some 5) 0.5 10).2.2.1 (candA, ⟨9 / 10, 0, 0, 9 / 10⟩)
      (by rw [searchEval_example]; exact List.mem_cons_self _ _)
  · exact (C7_ordering_truncation_stability.2 [jobJ] [candRA, candRB] 1 0.5 10).2.2.1
      (candRA, ⟨1, 1, 0, 7 / 10⟩)
      (by rw [rankEval_example]; exact List.mem_cons_self _ _)

end RS
